import Mathlib

/-!
Verification of the YouTube local harness (`src/youtube/tester.youtube.js`).

The harness has three cores, modelled here as executable Lean definitions:
  * the `setData` log formatter (source lines 71-79);
  * the Result Capture Coordinator: a Promise raced between the connector's
    `setData("result", v)` emissions, its own completion value, a rejection,
    and a 30-minute safety timeout (source lines 182-207), followed by the
    harness tail (`context.close`, `if (!result)` exit path, summary, file
    write, lines 213-236);
  * the `promptUser` interaction gate: a poll loop with a `done` flag raced
    against a terminal "Enter" signal (source lines 108-143).

JavaScript runs on a single-threaded event loop, so every run of the harness
is a sequence of atomic event-loop turns.  We model a run as the list of those
turns in temporal order and give each component a small-step semantics over
that list.  Promise settlement is "first resolve/reject call wins": later
calls to `resolve`/`reject` on a settled promise are no-ops, which the model
captures by taking the first resolving event of the trace.
-/

/-- JavaScript values, as far as the harness inspects them.  Numbers are
modelled as integers (the harness never does float arithmetic on them);
`undefined` and `null` are separate as in JS.  Object fields are an
association list; a runtime JS object has unique keys, and `getField` reads
the first binding. -/
inductive JSVal where
  | null
  | undefined
  | bool (b : Bool)
  | num (n : Int)
  | str (s : String)
  | arr (elems : List JSVal)
  | obj (fields : List (String × JSVal))
deriving Repr

/-- JS truthiness: `null`, `undefined`, `false`, `0` and `""` are falsy;
every object and array is truthy (including `{}` and `[]`). -/
def truthy : JSVal → Bool
  | .null => false
  | .undefined => false
  | .bool b => b
  | .num n => n != 0
  | .str s => s != ""
  | .arr _ => true
  | .obj _ => true

/-- Property access `v.f` on a non-null value: objects look the field up
(`undefined` when absent); primitives and arrays have no such own field, so
the access yields `undefined`.  (Access on `null`/`undefined` would throw in
JS; the harness only accesses fields behind a truthiness guard, so the
`undefined` result for those constructors is never relied upon.) -/
def getField (v : JSVal) (f : String) : JSVal :=
  match v with
  | .obj fields =>
      match fields.lookup f with
      | some w => w
      | none => .undefined
  | _ => .undefined

/-- `typeof value === 'object' && value !== null` — the guard on source line
72 selecting the JSON-preview branch of `setData`.  In JS `typeof null` is
`'object'` (hence the explicit null check) and arrays are objects. -/
def isObjBranch : JSVal → Bool
  | .arr _ => true
  | .obj _ => true
  | _ => false

/-- JSON string escaping for `JSON.stringify`: quote, backslash and the
common control characters.  (Other control characters would be escaped as
`\uXXXX` by JS; the harness's claims depend only on lengths of ordinary
text, so those are left verbatim.) -/
def jsonEscapeChar (c : Char) : String :=
  if c = '"' then "\\\""
  else if c = '\\' then "\\\\"
  else if c = '\n' then "\\n"
  else if c = '\t' then "\\t"
  else if c = '\r' then "\\r"
  else String.mk [c]

/-- A JSON string literal: the escaped text between double quotes. -/
def jsonQuote (s : String) : String :=
  "\"" ++ String.join (s.data.map jsonEscapeChar) ++ "\""

mutual

/-- `JSON.stringify(value)` (no indent), as called on source line 73.
Returns `none` exactly when JS would return `undefined` (top-level
`undefined`); arrays and objects always stringify. -/
def jsonStringify : JSVal → Option String
  | .null => some "null"
  | .undefined => none
  | .bool true => some "true"
  | .bool false => some "false"
  | .num n => some (toString n)
  | .str s => some (jsonQuote s)
  | .arr es => some ("[" ++ String.intercalate "," (jsonArrParts es) ++ "]")
  | .obj fs => some ("\x7b" ++ String.intercalate "," (jsonObjParts fs) ++ "\x7d")

/-- Array elements under `JSON.stringify`: an element that would stringify
to nothing (`undefined`) renders as `null`. -/
def jsonArrParts : List JSVal → List String
  | [] => []
  | e :: es =>
      (match jsonStringify e with
       | some s => s
       | none => "null") :: jsonArrParts es

/-- Object fields under `JSON.stringify`: a field whose value would
stringify to nothing (`undefined`) is omitted. -/
def jsonObjParts : List (String × JSVal) → List String
  | [] => []
  | (k, v) :: fs =>
      match jsonStringify v with
      | some s => (jsonQuote k ++ ":" ++ s) :: jsonObjParts fs
      | none => jsonObjParts fs

end

mutual

/-- Template-literal coercion `${value}` (source line 77): `String(value)`.
Primitives render without quotes; objects render as `[object Object]`;
arrays join their elements with commas, `null`/`undefined` elements
rendering empty.  In `setData` this branch is only reached for non-objects
(the guard on line 72 sends objects and arrays to the JSON branch). -/
def jsToDisplay : JSVal → String
  | .null => "null"
  | .undefined => "undefined"
  | .bool true => "true"
  | .bool false => "false"
  | .num n => toString n
  | .str s => s
  | .arr es => String.intercalate "," (jsArrDisplayParts es)
  | .obj _ => "[object Object]"

/-- `Array.prototype.toString` element rendering: `null` and `undefined`
become the empty string, everything else coerces as usual. -/
def jsArrDisplayParts : List JSVal → List String
  | [] => []
  | .null :: es => "" :: jsArrDisplayParts es
  | .undefined :: es => "" :: jsArrDisplayParts es
  | e :: es => jsToDisplay e :: jsArrDisplayParts es

end

/-- The preview truncation of source line 74:
`preview.length > 200 ? preview.slice(0, 200) + '…' : preview`.
JS `slice` counts UTF-16 code units; the harness's previews are ordinary
text, modelled here as a character-level take. -/
def jsTruncate (s : String) : String :=
  if s.length > 200 then String.mk (s.data.take 200) ++ "…" else s

/-- The log line written by `pageShim.setData(key, value)` (source lines
71-79).  Objects (and arrays) log a possibly-truncated `JSON.stringify`
preview; every other value is interpolated in full.  In the object branch
`jsonStringify` never returns `none`, so the `getD` default is unreachable.
The function is total: `setData` never throws. -/
def setDataLine (key : String) (value : JSVal) : String :=
  if isObjBranch value then
    let preview := (jsonStringify value).getD "undefined"
    "[setData] " ++ key ++ ": " ++ jsTruncate preview
  else
    "[setData] " ++ key ++ ": " ++ jsToDisplay value

/-!
## Result Capture Coordinator (source lines 173-218)

The coordinator is the Promise of lines 182-207.  Its executor installs
three ways of settling it:

  * the overridden `pageShim.setData` — `if (key === 'result') resolve(value)`
    (lines 185-188);
  * the fallback on the connector's own completion —
    `connectorPromise.then(r => { if (r && r.data) resolve(r.data) }).catch(reject)`
    (lines 194-199), and `reject(err)` on a synchronous `require` throw
    (lines 201-203);
  * the safety timeout — `setTimeout(() => resolve(null), 30 * 60 * 1000)`
    (line 206).

A run is the list of connector-side event-loop turns in temporal order, each
stamped with its wall-clock time in milliseconds from run start; the harness
adds the timeout turn at the 30-minute mark.  A JS promise settles with the
first `resolve`/`reject` call and ignores all later ones.
-/

/-- A connector-side event-loop turn that the coordinator can observe. -/
inductive ConnEvent where
  | setData (key : String) (value : JSVal)
  | complete (r : JSVal)
  | reject
deriving Repr

/-- A connector turn stamped with its time (ms from run start). -/
structure TimedEvent where
  time : Nat
  ev : ConnEvent
deriving Repr

/-- A coordinator-level turn: a connector turn or the safety-timeout timer. -/
inductive RunEvent where
  | conn (e : ConnEvent)
  | timeout
deriving Repr

/-- How the coordinator promise settles. -/
inductive Outcome where
  | value (v : JSVal)
  | error
deriving Repr

/-- What a single turn does to a still-pending coordinator promise:
`setData` resolves with the value exactly when the key is `"result"`
(line 187); connector completion resolves with `r.data` exactly when
`r && r.data` is truthy (line 198); a rejection rejects (lines 199, 202);
the timer resolves with `null` (line 206). -/
def settleEvent : RunEvent → Option Outcome
  | .conn (.setData key v) => if key = "result" then some (.value v) else none
  | .conn (.complete r) =>
      if truthy r && truthy (getField r "data") then some (.value (getField r "data"))
      else none
  | .conn .reject => some .error
  | .timeout => some (.value .null)

/-- Promise settlement semantics: the first turn that calls
`resolve`/`reject` fixes the outcome; later turns are no-ops. -/
def settleFirst : List RunEvent → Option Outcome
  | [] => none
  | e :: es =>
      match settleEvent e with
      | some o => some o
      | none => settleFirst es

/-- `30 * 60 * 1000` — the safety ceiling of source line 206. -/
def SAFETY_TIMEOUT_MS : Nat := 30 * 60 * 1000

/-- Interleave the safety-timeout turn into a timed connector trace: turns
earlier than the deadline run first, then the timer fires, then any later
connector turns (which are inert for an already settled promise but still
run).  For a trace in temporal order this is exactly the event-loop order. -/
def withTimeout (tr : List TimedEvent) : List RunEvent :=
  (tr.takeWhile (fun e => e.time < SAFETY_TIMEOUT_MS)).map (fun e => .conn e.ev)
    ++ .timeout :: (tr.dropWhile (fun e => e.time < SAFETY_TIMEOUT_MS)).map (fun e => .conn e.ev)

/-- The settlement of the coordinator promise on a run. -/
def runOutcome (tr : List TimedEvent) : Option Outcome :=
  settleFirst (withTimeout tr)

/-- The harness's `result` variable after `await` and the `catch` of lines
208-211: a resolution's value, or `null` when the promise rejected
(`result = null`). -/
def harnessOutcome (tr : List TimedEvent) : JSVal :=
  match runOutcome tr with
  | some (.value v) => v
  | some .error => .null
  | none => .undefined

/-- The value of the first `setData("result", V)` emission of a trace, if
any — the `V` that claim C2 speaks about. -/
def firstResultValue : List TimedEvent → Option JSVal
  | [] => none
  | ⟨_, .setData k v⟩ :: es => if k = "result" then some v else firstResultValue es
  | _ :: es => firstResultValue es

/-- Observable end state of one harness run (source lines 208-237). -/
structure RunResult where
  /-- The `result` variable at line 215. -/
  result : JSVal
  /-- Whether `[harness] Connector threw an error` was printed (line 209). -/
  errorLogged : Bool
  /-- Whether `[harness] No result captured` was printed (line 216). -/
  noResultLogged : Bool
  /-- The document serialized to `youtube-export.json`, when written
  (line 235); `none` when the run exited before writing. -/
  wrote : Option JSVal
  /-- The process exit code: `process.exit(1)` on line 217, or 0 at the
  normal end of the script. -/
  exitCode : Nat
deriving Repr

/-- The whole harness tail: catch converts a rejection to `result = null`
with an error log; `if (!result)` (a JS falsiness test) logs and exits 1
without writing; otherwise the summary is printed, the result is serialized
to the output file, and the process ends with code 0. -/
def harnessRun (tr : List TimedEvent) : RunResult :=
  match runOutcome tr with
  | some .error => ⟨.null, true, true, none, 1⟩
  | some (.value v) =>
      if truthy v then ⟨v, false, false, some v, 0⟩
      else ⟨v, false, true, none, 1⟩
  | none => ⟨.undefined, false, true, none, 1⟩

/-!
## Interaction Gate — `promptUser` (source lines 108-143)

`promptUser` returns a Promise whose executor tracks a local `done` flag and
runs two concurrent activities:

  * the poll chain `poll`: each invocation first checks `if (done) return;`,
    then awaits `callback()`; a truthy result sets `done = true` and calls
    `resolve()`; a falsy result or a thrown error (the `catch (_)` of line
    127 swallows it) falls through to `if (!done) setTimeout(poll, intervalMs)`;
  * the Enter listener: `waitForEnter().then(() => { if (!done) { done = true;
    resolve(); } })`.

Because `await callback()` suspends between the `done` check and the use of
the callback's result, a poll invocation is two event-loop turns: the
synchronous prefix up to the `await` (`pollBegin`) and the continuation that
receives the callback's result or exception (`pollEnd`).  The Enter handler
is one turn (`enter`).  Note the continuation does not re-check `done`, so a
truthy poll can call `resolve()` a second time after Enter resolved during
the await; the promise ignores that second call.
-/

/-- How one invocation of the callback ends: a boolean result or a raise. -/
inductive PollRes where
  | ok (b : Bool)
  | exn
deriving Repr

/-- One event-loop turn inside `promptUser`. -/
inductive GateEvent where
  | pollBegin
  | pollEnd (r : PollRes)
  | enter
deriving Repr

/-- Which path called `resolve()`. -/
inductive GateCause where
  | pollSuccess
  | manual
deriving Repr, DecidableEq

/-- The executor's local state: the `done` flag, and whether a poll
invocation has passed its `done` check and is awaiting the callback. -/
structure GateState where
  done : Bool
  checking : Bool
deriving Repr, DecidableEq

/-- Small step of the gate: the next state and the `resolve()` call this
turn makes, if any.  `pollBegin` returns early when `done` (line 119),
otherwise proceeds into `await callback()`; `pollEnd (.ok true)` sets `done`
and resolves without re-checking `done` (lines 122-125); falsy and raising
callbacks resolve nothing (lines 127-129); `enter` resolves only when the
`if (!done)` guard passes (lines 134-139). -/
def promptUserStep (s : GateState) : GateEvent → GateState × Option GateCause
  | .pollBegin =>
      if s.done then (s, none)
      else ({ s with checking := true }, none)
  | .pollEnd r =>
      if s.checking then
        match r with
        | .ok true => (⟨true, false⟩, some .pollSuccess)
        | .ok false => ({ s with checking := false }, none)
        | .exn => ({ s with checking := false }, none)
      else (s, none)
  | .enter =>
      if s.done then (s, none)
      else ({ s with done := true }, some .manual)

/-- The state after running a list of turns. -/
def promptUserExec (s : GateState) : List GateEvent → GateState
  | [] => s
  | e :: es => promptUserExec (promptUserStep s e).1 es

/-- The `resolve()` calls made while running a list of turns, in order. -/
def promptUserResolves (s : GateState) : List GateEvent → List GateCause
  | [] => []
  | e :: es =>
      match promptUserStep s e with
      | (s', some c) => c :: promptUserResolves s' es
      | (s', none) => promptUserResolves s' es

/-- The initial executor state: not done, no poll in flight. -/
def gateInit : GateState := ⟨false, false⟩

/-- The visible resolution of the `promptUser` promise: the first
`resolve()` call wins; later calls are no-ops on a settled promise. -/
def promptUserOutcome (tr : List GateEvent) : Option GateCause :=
  (promptUserResolves gateInit tr).head?

/-- A trace on which the callback raises at every invocation: no poll turn
ever delivers a boolean result. -/
def allPollsRaise (tr : List GateEvent) : Prop :=
  ∀ b : Bool, GateEvent.pollEnd (.ok b) ∉ tr

deriving instance DecidableEq for PollRes
deriving instance DecidableEq for GateEvent

/-!
## Concrete runs used below

Small closed traces on which the theorems and counterexamples are
evaluated.  Times are milliseconds from run start.
-/

/-- A run whose only `setData("result", ...)` emission happens one
millisecond after the 30-minute safety deadline. -/
def lateResultTrace : List TimedEvent :=
  [⟨SAFETY_TIMEOUT_MS + 1, .setData "result" (.num 7)⟩]

/-- A completion value `{ success: false, data: 5 }` — not of the shape
`{ success: true, data: D }`. -/
def successFalseValue : JSVal := .obj [("success", .bool false), ("data", .num 5)]

/-- A run in which the connector never emits a result and completes after
one second with `{ success: false, data: 5 }`. -/
def successFalseTrace : List TimedEvent := [⟨1000, .complete successFalseValue⟩]

/-- A run whose only emission is `setData("result", false)` at run start:
the coordinator settles with the non-null value `false`. -/
def falseResultTrace : List TimedEvent := [⟨0, .setData "result" (.bool false)⟩]

/-- A run whose only emission is `setData("result", "")`: the coordinator
settles with the non-null but falsy empty string. -/
def emptyStrResultTrace : List TimedEvent := [⟨0, .setData "result" (.str "")⟩]

/-- A 300-character string value, longer than the 200-character preview
cutoff. -/
def longString : String := String.mk (List.replicate 300 'a')

/-- An ordinary successful run: a progress emission, then
`setData("result", {success: true, data: {exportSummary: ...}})`. -/
def normalTrace : List TimedEvent :=
  [⟨500, .setData "progress" (.obj [("message", .str "loading")])⟩,
   ⟨9000, .setData "result" (.obj [("exportSummary", .obj [("subscriptions", .num 12)])])⟩]

/-- A run that rejects (the connector throws) two seconds in, then a late
completion that can no longer matter. -/
def rejectTrace : List TimedEvent :=
  [⟨2000, .reject⟩, ⟨3000, .complete (.obj [("data", .num 1)])⟩]

/-- A run with no connector activity at all: only the timer fires. -/
def idleTrace : List TimedEvent := []

/-!
## Helper lemmas
-/

theorem settleFirst_cons_some {e : RunEvent} {o : Outcome} {l : List RunEvent}
    (h : settleEvent e = some o) : settleFirst (e :: l) = some o := by
  simp [settleFirst, h]

theorem settleFirst_all_none {l : List RunEvent}
    (h : ∀ e ∈ l, settleEvent e = none) : settleFirst l = none := by
  induction l with
  | nil => rfl
  | cons e es ih =>
      simp only [settleFirst, h e (List.mem_cons_self e es)]
      exact ih fun x hx => h x (List.mem_cons_of_mem e hx)

theorem settleFirst_append_none {l1 l2 : List RunEvent}
    (h : settleFirst l1 = none) : settleFirst (l1 ++ l2) = settleFirst l2 := by
  induction l1 with
  | nil => rfl
  | cons e es ih =>
      simp only [settleFirst] at h ⊢
      cases he : settleEvent e with
      | some o => rw [he] at h; simp at h
      | none => rw [he] at h; simp only [List.cons_append]; exact ih h

theorem settleFirst_append_some {l1 l2 : List RunEvent} {o : Outcome}
    (h : settleFirst l1 = some o) : settleFirst (l1 ++ l2) = some o := by
  induction l1 with
  | nil => simp [settleFirst] at h
  | cons e es ih =>
      simp only [settleFirst] at h ⊢
      cases he : settleEvent e with
      | some o' => rw [he] at h; simpa [he] using h
      | none => rw [he] at h; simp only [List.cons_append]; exact ih h

theorem settleFirst_none_or_error {l : List RunEvent}
    (h : ∀ e ∈ l, settleEvent e = none ∨ settleEvent e = some .error) :
    settleFirst l = none ∨ settleFirst l = some .error := by
  induction l with
  | nil => exact Or.inl rfl
  | cons e es ih =>
      rcases h e (List.mem_cons_self e es) with he | he
      · simp only [settleFirst, he]
        exact ih fun x hx => h x (List.mem_cons_of_mem e hx)
      · simp [settleFirst, he]

theorem takeWhile_append_all {α} (p : α → Bool) {l1 : List α} (l2 : List α)
    (h : ∀ x ∈ l1, p x = true) : (l1 ++ l2).takeWhile p = l1 ++ l2.takeWhile p := by
  induction l1 with
  | nil => rfl
  | cons x xs ih =>
      simp only [List.cons_append, List.takeWhile_cons, h x (List.mem_cons_self x xs),
        ih fun y hy => h y (List.mem_cons_of_mem x hy), if_true]

theorem dropWhile_append_all {α} (p : α → Bool) {l1 : List α} (l2 : List α)
    (h : ∀ x ∈ l1, p x = true) : (l1 ++ l2).dropWhile p = l2.dropWhile p := by
  induction l1 with
  | nil => rfl
  | cons x xs ih =>
      simp only [List.cons_append, List.dropWhile_cons, h x (List.mem_cons_self x xs)]
      exact ih fun y hy => h y (List.mem_cons_of_mem x hy)

/-- Event-loop order of a run whose trace splits as `pre ++ x :: post` with
everything up to `x` earlier than the safety deadline: all of `pre`, then
`x`, then the rest with the timer interleaved. -/
theorem withTimeout_split (pre : List TimedEvent) (x : TimedEvent) (post : List TimedEvent)
    (hpre : ∀ e ∈ pre, e.time < SAFETY_TIMEOUT_MS) (hx : x.time < SAFETY_TIMEOUT_MS) :
    withTimeout (pre ++ x :: post) =
      pre.map (fun e => RunEvent.conn e.ev) ++ RunEvent.conn x.ev ::
        ((post.takeWhile (fun e => e.time < SAFETY_TIMEOUT_MS)).map (fun e => RunEvent.conn e.ev)
          ++ RunEvent.timeout ::
            (post.dropWhile (fun e => e.time < SAFETY_TIMEOUT_MS)).map (fun e => RunEvent.conn e.ev)) := by
  unfold withTimeout
  rw [takeWhile_append_all _ _ (fun e he => by simpa using hpre e he),
      dropWhile_append_all _ _ (fun e he => by simpa using hpre e he)]
  simp [List.takeWhile_cons, List.dropWhile_cons, hx]

/-- If everything before `x` neither resolves nor rejects and `x` settles
with `o` before the deadline, the run settles with `o`. -/
theorem runOutcome_split {pre : List TimedEvent} {x : TimedEvent} (post : List TimedEvent)
    {o : Outcome}
    (hpre : ∀ e ∈ pre, e.time < SAFETY_TIMEOUT_MS ∧ settleEvent (.conn e.ev) = none)
    (hx : x.time < SAFETY_TIMEOUT_MS) (ho : settleEvent (.conn x.ev) = some o) :
    runOutcome (pre ++ x :: post) = some o := by
  unfold runOutcome
  rw [withTimeout_split pre x post (fun e he => (hpre e he).1) hx]
  rw [settleFirst_append_none (settleFirst_all_none ?_)]
  · exact settleFirst_cons_some ho
  · intro y hy
    obtain ⟨e, he, rfl⟩ := List.mem_map.1 hy
    exact (hpre e he).2

theorem promptUserResolves_append (s : GateState) (l1 l2 : List GateEvent) :
    promptUserResolves s (l1 ++ l2) =
      promptUserResolves s l1 ++ promptUserResolves (promptUserExec s l1) l2 := by
  induction l1 generalizing s with
  | nil => rfl
  | cons e es ih =>
      rcases h : promptUserStep s e with ⟨s', c⟩
      cases c <;> simp [promptUserResolves, promptUserExec, h, ih]

theorem allPollsRaise_tail {e : GateEvent} {es : List GateEvent}
    (h : allPollsRaise (e :: es)) : allPollsRaise es :=
  fun b hb => h b (List.mem_cons_of_mem e hb)

/-- Once `done` is set, a run whose polls all raise makes no further
`resolve()` call: the raising polls are swallowed and the Enter guard
blocks. -/
theorem promptUserResolves_done_allRaise :
    ∀ (tr : List GateEvent) (s : GateState), s.done = true → allPollsRaise tr →
      promptUserResolves s tr = [] := by
  intro tr
  induction tr with
  | nil => intro s _ _; rfl
  | cons e es ih =>
      intro s hs h
      cases e with
      | pollBegin =>
          simp only [promptUserResolves, promptUserStep, hs, if_true]
          exact ih s hs (allPollsRaise_tail h)
      | pollEnd r =>
          cases r with
          | ok b => exact absurd (List.mem_cons_self _ es) (h b)
          | exn =>
              by_cases hc : s.checking <;>
                simp only [promptUserResolves, promptUserStep, hc, if_true, if_false] <;>
                exact ih _ hs (allPollsRaise_tail h)
      | enter =>
          simp only [promptUserResolves, promptUserStep, hs, if_true]
          exact ih s hs (allPollsRaise_tail h)

/-- From a not-yet-done state, a run whose polls all raise resolves exactly
when an Enter arrives, and then only through the manual path. -/
theorem promptUserResolves_notdone_allRaise :
    ∀ (tr : List GateEvent) (c : Bool), allPollsRaise tr →
      promptUserResolves ⟨false, c⟩ tr =
        if GateEvent.enter ∈ tr then [GateCause.manual] else [] := by
  intro tr
  induction tr with
  | nil => intro c _; rfl
  | cons e es ih =>
      intro c h
      cases e with
      | pollBegin =>
          simp only [promptUserResolves, promptUserStep]
          rw [show (if ({ done := false, checking := c } : GateState).done = true
                then (({ done := false, checking := c } : GateState), (none : Option GateCause))
                else ({ done := false, checking := true }, none)) =
              (({ done := false, checking := true } : GateState), none) from rfl]
          simp only []
          rw [ih true (allPollsRaise_tail h)]
          simp [List.mem_cons]
      | pollEnd r =>
          cases r with
          | ok b => exact absurd (List.mem_cons_self _ es) (h b)
          | exn =>
              cases c <;>
                simp only [promptUserResolves, promptUserStep] <;>
                simp only [show ((false : Bool) = true) = False by simp, if_false, if_true] <;>
                rw [ih _ (allPollsRaise_tail h)] <;>
                simp [List.mem_cons]
      | enter =>
          simp only [promptUserResolves, promptUserStep]
          simp only [show ((false : Bool) = true) = False by simp, if_false]
          rw [promptUserResolves_done_allRaise es ⟨true, c⟩ rfl (allPollsRaise_tail h)]
          simp [List.mem_cons]

/-- If nothing in `pre` settles the coordinator, `pre` contains no
`setData("result", ...)` turn, so the first result emission of
`pre ++ rest` is that of `rest`. -/
theorem firstResultValue_append_none {pre : List TimedEvent}
    (h : ∀ e ∈ pre, settleEvent (.conn e.ev) = none) (rest : List TimedEvent) :
    firstResultValue (pre ++ rest) = firstResultValue rest := by
  induction pre with
  | nil => rfl
  | cons e es ih =>
      rcases e with ⟨te, ev⟩
      cases ev with
      | setData k w =>
          have hne : ¬(k = "result") := by
            intro hk
            have := h ⟨te, .setData k w⟩ (List.mem_cons_self _ _)
            rw [hk] at this
            simp [settleEvent] at this
          simp only [List.cons_append, firstResultValue, if_neg hne]
          exact ih fun x hx => h x (List.mem_cons_of_mem _ hx)
      | complete r =>
          simp only [List.cons_append, firstResultValue]
          exact ih fun x hx => h x (List.mem_cons_of_mem _ hx)
      | reject =>
          simp only [List.cons_append, firstResultValue]
          exact ih fun x hx => h x (List.mem_cons_of_mem _ hx)

/-- C1: the Result Capture Coordinator settles exactly once per run — every
run has an outcome (the timer guarantees settlement), and once the first
resolving turn has fixed the outcome, no later turn (explicit result,
fallback completion, or the timeout) changes it: the settlement of
`pre ++ e :: post` is the outcome of `e` whenever nothing in `pre` settles,
for every `post`. -/
theorem C1_coordinator_settles_once :
    (∀ tr : List TimedEvent, ∃ o : Outcome, runOutcome tr = some o) ∧
    (∀ (pre : List RunEvent) (e : RunEvent) (o : Outcome) (post : List RunEvent),
      (∀ x ∈ pre, settleEvent x = none) → settleEvent e = some o →
      settleFirst (pre ++ e :: post) = some o) := by
  constructor
  · intro tr
    unfold runOutcome withTimeout
    cases h : settleFirst ((tr.takeWhile (fun e => e.time < SAFETY_TIMEOUT_MS)).map
        (fun e => RunEvent.conn e.ev)) with
    | some o => exact ⟨o, settleFirst_append_some h⟩
    | none =>
        refine ⟨.value .null, ?_⟩
        rw [settleFirst_append_none h]
        exact settleFirst_cons_some rfl
  · intro pre e o post hpre he
    rw [settleFirst_append_none (settleFirst_all_none hpre)]
    exact settleFirst_cons_some he

/-- Witness for C1: a run that emits a result, then would time out, then
completes with fallback-shaped data, settles with the explicit result. -/
theorem C1_coordinator_settles_once_witness :
    settleFirst [RunEvent.conn (.setData "result" (.num 1)), RunEvent.timeout,
      RunEvent.conn (.complete (.obj [("data", .num 2)]))] =
      some (.value (.num 1)) :=
  C1_coordinator_settles_once.2 [] (RunEvent.conn (.setData "result" (.num 1)))
    (.value (.num 1))
    [RunEvent.timeout, RunEvent.conn (.complete (.obj [("data", .num 2)]))]
    (fun x hx => absurd hx (List.not_mem_nil x)) rfl

/-- Counterexample to C2 as stated: the connector's only
`setData("result", 7)` emission arrives one millisecond after the
30-minute deadline; the coordinator has already settled with `null`, so the
outcome is `null`, not `7` — the outcome is not independent of the safety
timeout. -/
theorem C2_counterexample_late_emission :
    firstResultValue lateResultTrace = some (.num 7) ∧
    harnessOutcome lateResultTrace = .null ∧ JSVal.null ≠ JSVal.num 7 :=
  ⟨rfl, rfl, by simp⟩

/-- C2 (amended): if the connector's first `setData("result", V)` emission
happens before the 30-minute safety deadline and before any other resolving
trigger (a completion with truthy `data`, or a rejection), then the
coordinator's outcome is exactly that first `V`, regardless of every later
emission, the completion value, and the timeout. -/
theorem C2_first_result_emission_wins :
    ∀ (pre post : List TimedEvent) (t : Nat) (v : JSVal),
      (∀ e ∈ pre, e.time < SAFETY_TIMEOUT_MS ∧ settleEvent (.conn e.ev) = none) →
      t < SAFETY_TIMEOUT_MS →
      firstResultValue (pre ++ ⟨t, .setData "result" v⟩ :: post) = some v ∧
      harnessOutcome (pre ++ ⟨t, .setData "result" v⟩ :: post) = v := by
  intro pre post t v hpre ht
  constructor
  · rw [firstResultValue_append_none (fun e he => (hpre e he).2)]
    simp [firstResultValue]
  · have h : runOutcome (pre ++ ⟨t, .setData "result" v⟩ :: post) = some (.value v) :=
      runOutcome_split post hpre ht (by simp [settleEvent])
    simp [harnessOutcome, h]

/-- Witness for the amended C2: a progress emission, then a result emission
at nine seconds; the outcome is the emitted object. -/
theorem C2_first_result_emission_wins_witness :
    firstResultValue normalTrace =
      some (.obj [("exportSummary", .obj [("subscriptions", .num 12)])]) ∧
    harnessOutcome normalTrace =
      .obj [("exportSummary", .obj [("subscriptions", .num 12)])] :=
  C2_first_result_emission_wins
    [⟨500, .setData "progress" (.obj [("message", .str "loading")])⟩] [] 9000
    (.obj [("exportSummary", .obj [("subscriptions", .num 12)])])
    (by
      intro e he
      simp only [List.mem_singleton] at he
      subst he
      exact ⟨by decide, rfl⟩)
    (by decide)

/-- Counterexample to C3 as stated: the connector completes with
`{ success: false, data: 5 }` — not a `{ success: true, data: D }` value —
having never emitted a result, yet the fallback fires and the outcome is
`5`: the code checks only `r && r.data` and never inspects `success`. -/
theorem C3_counterexample_success_not_checked :
    getField successFalseValue "success" = .bool false ∧
    firstResultValue successFalseTrace = none ∧
    harnessOutcome successFalseTrace = .num 5 :=
  ⟨rfl, rfl, rfl⟩

/-- C3 (amended): the fallback fires on a connector completion value `r`
exactly when `r` is truthy and `r.data` is truthy — the `success` flag and
the shape of `data` are never inspected; and when the connector settles
nothing earlier and completes with such an `r` before the safety deadline,
the outcome is `r.data`. -/
theorem C3_fallback_checks_only_truthy_data :
    (∀ r : JSVal,
      (∃ o, settleEvent (.conn (.complete r)) = some o) ↔
        (truthy r = true ∧ truthy (getField r "data") = true)) ∧
    (∀ (pre post : List TimedEvent) (t : Nat) (r : JSVal),
      (∀ e ∈ pre, e.time < SAFETY_TIMEOUT_MS ∧ settleEvent (.conn e.ev) = none) →
      t < SAFETY_TIMEOUT_MS →
      truthy r = true → truthy (getField r "data") = true →
      harnessOutcome (pre ++ ⟨t, .complete r⟩ :: post) = getField r "data") := by
  constructor
  · intro r
    by_cases h : truthy r && truthy (getField r "data")
    · simp only [Bool.and_eq_true] at h
      simp [settleEvent, h]
    · simp only [Bool.and_eq_true] at h
      constructor
      · intro ⟨o, ho⟩
        by_contra hcon
        simp only [settleEvent] at ho
        rw [if_neg (by simpa [Bool.and_eq_true] using h)] at ho
        exact Option.noConfusion ho
      · intro hc
        exact absurd hc h
  · intro pre post t r hpre ht h1 h2
    have h : runOutcome (pre ++ ⟨t, .complete r⟩ :: post) =
        some (.value (getField r "data")) :=
      runOutcome_split post hpre ht (by simp [settleEvent, h1, h2])
    simp [harnessOutcome, h]

/-- Witness for the amended C3: a lone completion with
`{ success: true, data: {exportSummary: ...} }` yields that data object. -/
theorem C3_fallback_checks_only_truthy_data_witness :
    harnessOutcome [⟨1000, .complete (.obj [("success", .bool true),
        ("data", .obj [("exportSummary", .num 3)])])⟩] =
      getField (.obj [("success", .bool true),
        ("data", .obj [("exportSummary", .num 3)])]) "data" :=
  C3_fallback_checks_only_truthy_data.2 [] [] 1000
    (.obj [("success", .bool true), ("data", .obj [("exportSummary", .num 3)])])
    (fun x hx => absurd hx (List.not_mem_nil x)) (by decide) rfl rfl

/-- C4: if every connector turn before the 30-minute deadline is inert for
the coordinator — no `setData("result", ...)` emission and no completion
with truthy `data` (a rejection is allowed: the catch converts it to
`null`) — then the harness's outcome is `null`. -/
theorem C4_no_signal_before_deadline_yields_null :
    ∀ tr : List TimedEvent,
      (∀ e ∈ tr.takeWhile (fun e => e.time < SAFETY_TIMEOUT_MS),
        settleEvent (.conn e.ev) = none ∨ e.ev = .reject) →
      harnessOutcome tr = .null := by
  intro tr h
  have hall : ∀ x ∈ (tr.takeWhile (fun e => e.time < SAFETY_TIMEOUT_MS)).map
      (fun e => RunEvent.conn e.ev),
      settleEvent x = none ∨ settleEvent x = some .error := by
    intro x hx
    obtain ⟨e, he, rfl⟩ := List.mem_map.1 hx
    rcases h e he with h1 | h1
    · exact Or.inl h1
    · rw [h1]
      exact Or.inr rfl
  rcases settleFirst_none_or_error hall with h1 | h1
  · unfold harnessOutcome runOutcome withTimeout
    rw [settleFirst_append_none h1]
    rfl
  · unfold harnessOutcome runOutcome withTimeout
    rw [settleFirst_append_some h1]

/-- Witness for C4: a run whose only activity is a completion carrying no
`data` field (an invalid fallback) ends with a `null` outcome. -/
theorem C4_no_signal_before_deadline_yields_null_witness :
    harnessOutcome [⟨1000, .complete (.obj [("success", .bool true)])⟩] = .null :=
  C4_no_signal_before_deadline_yields_null
    [⟨1000, .complete (.obj [("success", .bool true)])⟩]
    (by
      intro e he
      simp [List.takeWhile, SAFETY_TIMEOUT_MS] at he
      subst he
      exact Or.inl rfl)

/-- C8: a connector rejection (a top-level throw or a rejected unit of
work) before any resolving turn and before the deadline is caught at the
coordinator boundary: the outcome is downgraded to `null`, the failure is
logged, no output file is written, and the process exits with code 1. -/
theorem C8_connector_error_downgraded :
    ∀ (pre post : List TimedEvent) (t : Nat),
      (∀ e ∈ pre, e.time < SAFETY_TIMEOUT_MS ∧ settleEvent (.conn e.ev) = none) →
      t < SAFETY_TIMEOUT_MS →
      harnessRun (pre ++ ⟨t, .reject⟩ :: post) =
        ⟨.null, true, true, none, 1⟩ := by
  intro pre post t hpre ht
  have h : runOutcome (pre ++ ⟨t, .reject⟩ :: post) = some .error :=
    runOutcome_split post hpre ht rfl
  simp [harnessRun, h]

/-- Witness for C8: the connector throws at two seconds; a later
fallback-shaped completion can no longer matter. -/
theorem C8_connector_error_downgraded_witness :
    harnessRun rejectTrace = ⟨.null, true, true, none, 1⟩ :=
  C8_connector_error_downgraded [] [⟨3000, .complete (.obj [("data", .num 1)])⟩] 2000
    (fun x hx => absurd hx (List.not_mem_nil x)) (by decide)

/-- Counterexample to C9 as stated: `setData("result", false)` settles the
coordinator with the non-null outcome `false`, yet `if (!result)` treats it
as missing — no output file is written and the process exits 1, although
the claim promises a write and exit code 0 for every non-null outcome. -/
theorem C9_counterexample_nonnull_falsy_result :
    harnessOutcome falseResultTrace = .bool false ∧
    JSVal.bool false ≠ JSVal.null ∧
    (harnessRun falseResultTrace).wrote = none ∧
    (harnessRun falseResultTrace).exitCode = 1 :=
  ⟨rfl, by simp, rfl, rfl⟩

/-- C9 (amended): the persisted output and exit code are gated by JS
truthiness of the settled outcome, not by non-nullness: exactly when the
harness's `result` is truthy, the full outcome is serialized to the output
file and the process exits 0; for a falsy `result` (null from timeout or
rejection, or a falsy captured value) no file is written and the exit code
is 1. -/
theorem C9_truthy_outcome_gates_output :
    ∀ tr : List TimedEvent,
      (truthy (harnessRun tr).result = true →
        (harnessRun tr).wrote = some (harnessRun tr).result ∧
        (harnessRun tr).exitCode = 0) ∧
      (truthy (harnessRun tr).result = false →
        (harnessRun tr).wrote = none ∧ (harnessRun tr).exitCode = 1) := by
  intro tr
  unfold harnessRun
  cases h : runOutcome tr with
  | none => simp [truthy]
  | some o =>
      cases o with
      | error => simp [truthy]
      | value v =>
          cases hv : truthy v <;> simp [hv]

/-- Witness for the amended C9: the ordinary successful run writes its
outcome and exits 0. -/
theorem C9_truthy_outcome_gates_output_witness :
    (harnessRun normalTrace).wrote = some (harnessRun normalTrace).result ∧
    (harnessRun normalTrace).exitCode = 0 :=
  (C9_truthy_outcome_gates_output normalTrace).1 rfl

/-- C10: a non-null but falsy settled outcome (e.g. `""`, `0`, `false`) is
treated by the harness exactly like a missing outcome: the no-result error
is logged, no output file is written, and the process exits 1. -/
theorem C10_falsy_nonnull_outcome_treated_as_missing :
    ∀ (tr : List TimedEvent) (v : JSVal),
      runOutcome tr = some (.value v) → v ≠ .null → truthy v = false →
      harnessRun tr = ⟨v, false, true, none, 1⟩ := by
  intro tr v h _ hv
  simp [harnessRun, h, hv]

/-- Witness for C10: a run whose first result emission carries the empty
string — a non-null, falsy outcome — logs the no-result error, writes
nothing and exits 1. -/
theorem C10_falsy_nonnull_outcome_treated_as_missing_witness :
    harnessRun emptyStrResultTrace = ⟨.str "", false, true, none, 1⟩ :=
  C10_falsy_nonnull_outcome_treated_as_missing emptyStrResultTrace (.str "")
    rfl (by simp) rfl

/-- C5: a raising predicate never resolves the gate.  First conjunct: a
poll round whose callback raises is invisible — it makes no `resolve()`
call and returns the executor to its pre-round state, so polling continues.
Second conjunct: on any run all of whose polls raise, the gate never
resolves through the polling path, and it resolves (manually) exactly when
an Enter signal arrives. -/
theorem C5_raising_predicate_never_resolves :
    (∀ (d : Bool) (tr : List GateEvent),
      promptUserResolves ⟨d, false⟩ (.pollBegin :: .pollEnd .exn :: tr) =
        promptUserResolves ⟨d, false⟩ tr) ∧
    (∀ tr : List GateEvent, allPollsRaise tr →
      promptUserOutcome tr ≠ some .pollSuccess ∧
      (promptUserOutcome tr = some .manual ↔ GateEvent.enter ∈ tr)) := by
  constructor
  · intro d tr
    cases d <;> rfl
  · intro tr h
    unfold promptUserOutcome gateInit
    rw [promptUserResolves_notdone_allRaise tr false h]
    by_cases he : GateEvent.enter ∈ tr <;> simp [he]

/-- Witness for C5: with an always-raising predicate, two failed poll
rounds change nothing, and the run resolves manually exactly because Enter
arrives. -/
theorem C5_raising_predicate_never_resolves_witness :
    (promptUserResolves ⟨false, false⟩
        (.pollBegin :: .pollEnd .exn :: [GateEvent.enter]) =
      promptUserResolves ⟨false, false⟩ [GateEvent.enter]) ∧
    (promptUserOutcome [.pollBegin, .pollEnd .exn, GateEvent.enter] = some .manual ↔
      GateEvent.enter ∈ [.pollBegin, .pollEnd .exn, GateEvent.enter]) :=
  ⟨C5_raising_predicate_never_resolves.1 false [GateEvent.enter],
   (C5_raising_predicate_never_resolves.2 [.pollBegin, .pollEnd .exn, GateEvent.enter]
     (by intro b; cases b <;> decide)).2⟩

/-- C6: the gate resolves exactly once, to whichever trigger fires first.
If no turn of `pre` makes a `resolve()` call and the next turn `e` resolves
with cause `c` (a truthy poll or a manual Enter), then for every
continuation of the run the gate's visible resolution is `c`: later truthy
polls and late Enter signals never produce a second visible resolution or
re-invoke the caller's continuation. -/
theorem C6_gate_resolves_once_first_trigger_wins :
    ∀ (pre : List GateEvent) (e : GateEvent) (c : GateCause),
      promptUserResolves gateInit pre = [] →
      (promptUserStep (promptUserExec gateInit pre) e).2 = some c →
      ∀ post : List GateEvent, promptUserOutcome (pre ++ e :: post) = some c := by
  intro pre e c hpre hstep post
  unfold promptUserOutcome
  rw [promptUserResolves_append, hpre]
  rcases hs : promptUserStep (promptUserExec gateInit pre) e with ⟨s', copt⟩
  have hc : copt = some c := by rw [hs] at hstep; exact hstep
  subst hc
  simp [promptUserResolves, hs]

/-- Witness for C6, exercising the subtle race: a poll is awaiting its
callback when Enter arrives and resolves manually; the poll then returns
truthy and calls `resolve()` a second time, but the visible resolution
stays manual. -/
theorem C6_gate_resolves_once_first_trigger_wins_witness :
    promptUserOutcome [GateEvent.pollBegin, .enter, .pollEnd (.ok true)] =
      some .manual :=
  C6_gate_resolves_once_first_trigger_wins [GateEvent.pollBegin] .enter .manual
    rfl rfl [GateEvent.pollEnd (.ok true)]

/-- After truncation a preview is at most 201 characters: 200 kept plus the
appended ellipsis (untruncated previews were at most 200 already, or are
returned whole below the cutoff). -/
theorem jsTruncate_length_le (s : String) :
    (jsTruncate s).length ≤ max s.length 201 := by
  unfold jsTruncate
  by_cases h : s.length > 200
  · rw [if_pos h]
    have hcast : (String.mk (s.data.take 200) ++ "…") =
        String.mk (s.data.take 200 ++ "…".data) := rfl
    rw [hcast]
    show (s.data.take 200 ++ "…".data).length ≤ max s.length 201
    rw [List.length_append, List.length_take]
    have h1 : min 200 s.data.length ≤ 200 := Nat.min_le_left _ _
    have h2 : ("…".data).length = 1 := rfl
    omega
  · rw [if_neg h]
    exact Nat.le_max_left _ _

set_option maxRecDepth 4000 in
/-- Counterexample to C7 as stated: a 300-character string value is logged
in full — the rendered form is the untruncated 300-character string, so not
every large value is summarized; only object-typed values are. -/
theorem C7_counterexample_long_string_logged_in_full :
    setDataLine "result" (.str longString) = "[setData] result: " ++ longString ∧
    longString.length = 300 ∧ 200 < longString.length :=
  ⟨rfl, rfl, by decide⟩

/-- C7 (amended): `setData` always writes the log line
`[setData] <key>: <display>` and never fails (the formatter is total).
For object-typed values (`typeof value === 'object'`, non-null) the display
is the JSON preview truncated past 200 characters — hence at most 201
characters beyond the preview's own length cap; for every other value the
display is the full untruncated string coercion of the value. -/
theorem C7_truncation_only_for_objects :
    ∀ (key : String) (v : JSVal),
      (∀ preview : String, isObjBranch v = true → jsonStringify v = some preview →
        setDataLine key v = "[setData] " ++ key ++ ": " ++ jsTruncate preview ∧
        (jsTruncate preview).length ≤ max preview.length 201 ∧
        (preview.length > 200 → (jsTruncate preview).length = 201)) ∧
      (isObjBranch v = false →
        setDataLine key v = "[setData] " ++ key ++ ": " ++ jsToDisplay v) := by
  intro key v
  constructor
  · intro preview hobj hjson
    refine ⟨?_, jsTruncate_length_le preview, ?_⟩
    · simp [setDataLine, hobj, hjson]
    · intro hlong
      unfold jsTruncate
      rw [if_pos hlong]
      show (preview.data.take 200 ++ "…".data).length = 201
      rw [List.length_append, List.length_take]
      have : (200 : Nat) ≤ preview.data.length := by
        have : preview.length = preview.data.length := rfl
        omega
      have h2 : ("…".data).length = 1 := rfl
      omega
  · intro hobj
    simp [setDataLine, hobj]

set_option maxRecDepth 4000 in
/-- Witness for the amended C7: an object whose JSON preview is 300
characters long is logged truncated to exactly 201 display characters,
while a plain number is logged verbatim. -/
theorem C7_truncation_only_for_objects_witness :
    (setDataLine "result" (.obj [("a", .str longString)]) =
      "[setData] " ++ "result" ++ ": " ++
        jsTruncate ("\x7b\"a\":\"" ++ longString ++ "\"\x7d") ∧
      (jsTruncate ("\x7b\"a\":\"" ++ longString ++ "\"\x7d")).length ≤
        max ("\x7b\"a\":\"" ++ longString ++ "\"\x7d").length 201 ∧
      (("\x7b\"a\":\"" ++ longString ++ "\"\x7d").length > 200 →
        (jsTruncate ("\x7b\"a\":\"" ++ longString ++ "\"\x7d")).length = 201)) ∧
    (setDataLine "count" (.num 42) = "[setData] " ++ "count" ++ ": " ++
      jsToDisplay (.num 42)) :=
  ⟨(C7_truncation_only_for_objects "result" (.obj [("a", .str longString)])).1
      ("\x7b\"a\":\"" ++ longString ++ "\"\x7d") rfl (by rfl),
   (C7_truncation_only_for_objects "count" (.num 42)).2 rfl⟩
